import Mathlib

/-!
Shallow embedding of the metrics engine of this repository:
`src/zipline/finance/metrics/default.py` (the metric units and the default
registry) and `src/zipline/finance/metrics/tracker.py` (the MetricsTracker
orchestrator).  Numeric scalars (portfolio fields, returns, timestamps) are
modelled as rationals; pandas Series are modelled as label/value pair lists;
Python dicts are modelled as key/value pair lists where writing prepends and
lookup takes the most recent write, which matches dict overwrite semantics.
-/

/-- Emission rate configuration: `'daily'` or `'minute'`. -/
inductive EmissionRate where
  | daily
  | minute
deriving DecidableEq

/-- The ledger's portfolio read model: the cumulative scalars that the metric
units read through `op.attrgetter` paths rooted at `portfolio.`. -/
structure Portfolio where
  returns : ℚ
  pnl : ℚ
  cash_flow : ℚ
  positions_value : ℚ
  positions_exposure : ℚ
  portfolio_value : ℚ
  cash : ℚ
deriving DecidableEq

/-- A pandas Series indexed by session label: label/value pairs in session
order. -/
abbrev SessionSeries := List (ℕ × ℚ)

/-- The values of a session-indexed Series in order (`Series.tolist()`). -/
def seriesValues (s : SessionSeries) : List ℚ := s.map (fun e => e.2)

/-- Label lookup `series[session]` on a session-indexed Series. -/
def seriesGetLabel (s : SessionSeries) (k : ℕ) : Option ℚ :=
  match s with
  | [] => none
  | (k2, v) :: rest => if k = k2 then some v else seriesGetLabel rest k

/-- The ledger read model the metric hooks receive: the portfolio scalars and
the per-session historical return series `ledger.daily_returns`. -/
structure Ledger where
  portfolio : Portfolio
  daily_returns : SessionSeries
deriving DecidableEq

/-- A period sub-mapping of a perf packet (field name, scalar value). -/
abbrev FieldMap := List (String × ℚ)

/-- Dict lookup on a sub-mapping: the most recent write of the key wins. -/
def lookupField (m : FieldMap) (k : String) : Option ℚ :=
  match m with
  | [] => none
  | (k2, v) :: rest => if k = k2 then some v else lookupField rest k

/-- A per-tick packet as the metric hooks see it: the three period-scoped
sub-mappings `minute_perf`, `daily_perf` and `cumulative_perf`. -/
structure Perf where
  minute_perf : FieldMap := []
  daily_perf : FieldMap := []
  cumulative_perf : FieldMap := []
deriving DecidableEq

/-- `packet['minute_perf'][k] = v`. -/
def Perf.writeMinute (p : Perf) (k : String) (v : ℚ) : Perf :=
  { p with minute_perf := (k, v) :: p.minute_perf }

/-- `packet['daily_perf'][k] = v`. -/
def Perf.writeDaily (p : Perf) (k : String) (v : ℚ) : Perf :=
  { p with daily_perf := (k, v) :: p.daily_perf }

/-- `packet['cumulative_perf'][k] = v`. -/
def Perf.writeCumulative (p : Perf) (k : String) (v : ℚ) : Perf :=
  { p with cumulative_perf := (k, v) :: p.cumulative_perf }

/-- SimpleLedgerField (default.py lines 9-54): `_get_ledger_field` is the
`op.attrgetter(ledger_field)` accessor, modelled as a function on the ledger
read model; `_packet_field` is the configured output name. -/
structure SimpleLedgerField where
  get_ledger_field : Ledger → ℚ
  packet_field : String

/-- The `_daily_value` state of a SimpleLedgerField:
`pd.Series(np.nan, index=sessions)`; `none` models NaN. -/
abbrev DailyValueSeries := List (ℕ × Option ℚ)

/-- SimpleLedgerField.start_of_simulation (lines 27-33): initialize
`_daily_value` to a NaN series indexed by `sessions`. -/
def SimpleLedgerField.start_of_simulation (sessions : List ℕ) : DailyValueSeries :=
  sessions.map (fun s => (s, none))

/-- Label assignment `self._daily_value[session] = value`. -/
def dailyValueSet (dv : DailyValueSeries) (session : ℕ) (v : ℚ) : DailyValueSeries :=
  dv.map (fun e => if e.1 = session then (e.1, some v) else e)

/-- SimpleLedgerField.end_of_bar (lines 35-42). -/
def SimpleLedgerField.end_of_bar (u : SimpleLedgerField) (p : Perf) (ledger : Ledger) :
    Perf :=
  p.writeMinute u.packet_field (u.get_ledger_field ledger)

/-- SimpleLedgerField.end_of_session (lines 44-51): copy the ledger field into
`daily_perf` and record it in `_daily_value` at the session label. -/
def SimpleLedgerField.end_of_session (u : SimpleLedgerField) (dv : DailyValueSeries)
    (p : Perf) (ledger : Ledger) (session : ℕ) : Perf × DailyValueSeries :=
  let value := u.get_ledger_field ledger
  (p.writeDaily u.packet_field value, dailyValueSet dv session value)

/-- StartOfPeriodLedgerField (default.py lines 57-96): same accessor and
output-name configuration as SimpleLedgerField. -/
structure StartOfPeriodLedgerField where
  get_ledger_field : Ledger → ℚ
  packet_field : String

/-- StartOfPeriodLedgerField.start_of_simulation (lines 75-81): the
`_previous_day` state is seeded from the current ledger value. -/
def StartOfPeriodLedgerField.start_of_simulation (u : StartOfPeriodLedgerField)
    (ledger : Ledger) : ℚ :=
  u.get_ledger_field ledger

/-- StartOfPeriodLedgerField.end_of_bar (lines 83-88): write the cached
previous-day value. -/
def StartOfPeriodLedgerField.end_of_bar (u : StartOfPeriodLedgerField)
    (previous_day : ℚ) (p : Perf) : Perf :=
  p.writeMinute u.packet_field previous_day

/-- StartOfPeriodLedgerField.end_of_session (lines 90-96): write the cached
value into `daily_perf`, then refresh the cache from the current ledger. -/
def StartOfPeriodLedgerField.end_of_session (u : StartOfPeriodLedgerField)
    (previous_day : ℚ) (p : Perf) (ledger : Ledger) : Perf × ℚ :=
  (p.writeDaily u.packet_field previous_day, u.get_ledger_field ledger)

/-- `(1 + s).prod() - 1` over a return series' values. -/
def compoundTotal (l : List ℚ) : ℚ := (l.map (fun r => 1 + r)).prod - 1

/-- pandas `Series.cumprod()` on the values: partial products. -/
def cumprodList (l : List ℚ) : List ℚ := (List.scanl (fun a b => a * b) 1 l).tail

/-- `(1 + s).cumprod() - 1` on the values. -/
def cumulativeReturnsValues (l : List ℚ) : List ℚ :=
  (cumprodList (l.map (fun r => 1 + r))).map (fun x => x - 1)

/-- `(1 + series).cumprod() - 1` keeping the session index. -/
def seriesCumulativeReturns (s : SessionSeries) : SessionSeries :=
  (s.map (fun e => e.1)).zip (cumulativeReturnsValues (seriesValues s))

/-- Returns.start_of_simulation (default.py lines 102-108):
`_previous_total_returns = 0`. -/
def returnsStartOfSimulation : ℚ := 0

/-- Returns.end_of_bar (lines 110-123): the inverse-compounded bar return and
the cumulative return. -/
def returnsEndOfBar (previous_total_returns : ℚ) (ledger : Ledger) (p : Perf) : Perf :=
  let current_total_returns := ledger.portfolio.returns
  let todays_returns := (previous_total_returns + 1) / (current_total_returns + 1) - 1
  (p.writeMinute "returns" todays_returns).writeCumulative "returns"
    current_total_returns

/-- Returns.end_of_session (lines 125-132): the ledger's precomputed daily
return, the cumulative return, and the rolled `_previous_total_returns`.
`none` models the KeyError of a label missing from `ledger.daily_returns`. -/
def returnsEndOfSession (ledger : Ledger) (p : Perf) (session : ℕ) :
    Option (Perf × ℚ) :=
  match seriesGetLabel ledger.daily_returns session with
  | none => none
  | some dr =>
    some ((p.writeDaily "returns" dr).writeCumulative "returns"
            ledger.portfolio.returns,
          ledger.portfolio.returns)

/-- A value of the flat simulation-end packet: a scalar, a `tolist()` of a
numeric series, or a `tolist()` of a NaN-initialized series. -/
inductive FVal where
  | num (q : ℚ)
  | nums (l : List ℚ)
  | optnums (l : List (Option ℚ))
deriving DecidableEq

/-- The flat simulation-end packet (a Python dict). -/
abbrev FlatPacket := List (String × FVal)

/-- Dict write `packet[k] = v` on the flat packet. -/
def fset (p : FlatPacket) (k : String) (v : FVal) : FlatPacket := (k, v) :: p

/-- Dict lookup on the flat packet: the most recent write of the key wins. -/
def fget (p : FlatPacket) (k : String) : Option FVal :=
  match p with
  | [] => none
  | (k2, v) :: rest => if k = k2 then some v else fget rest k

/-- An `end_of_simulation` hook bound to its metric's state: it extends the
flat packet, or fails (`none`) when the underlying lookup would raise. -/
abbrev EndOfSimulationHook := FlatPacket → Option FlatPacket

/-- Returns.end_of_simulation (lines 134-138): writes
`cumulative_algorithm_returns = (1 + ledger.daily_returns).prod() - 1` and
`daily_algorithm_returns = ledger.daily_returns.tolist()`. -/
def returnsEndOfSimulation (ledger : Ledger) : EndOfSimulationHook := fun p =>
  some (fset (fset p "cumulative_algorithm_returns"
                (FVal.num (compoundTotal (seriesValues ledger.daily_returns))))
          "daily_algorithm_returns" (FVal.nums (seriesValues ledger.daily_returns)))

/-- An error raised by a Series access inside a metric hook: the deferred
failure of an exploding placeholder (naming the misused field), or a missing
key. -/
inductive AccessError where
  | exploding (name : String)
  | keyMissing
deriving DecidableEq

/-- Modelled from the spec: `zipline.utils.exploding_object.ExplodingObject`
is imported by default.py but its module is not under src/.  Per the spec it
is "a placeholder that is valid to construct but fails with a descriptive
error the moment any bar-level access is attempted", naming the misused
field.  A minute-return series held by BenchmarkReturns is therefore either
a real time-indexed series or such a placeholder: constructing the
placeholder always succeeds, and any item access on it fails descriptively
with the configured name. -/
inductive MinuteSeries where
  | exploding (name : String)
  | series (entries : List (ℚ × ℚ))
deriving DecidableEq

/-- Assoc lookup of a minute timestamp in a time-indexed series. -/
def minuteLookup (l : List (ℚ × ℚ)) (t : ℚ) : Option ℚ :=
  match l with
  | [] => none
  | (t2, v) :: rest => if t = t2 then some v else minuteLookup rest t

/-- Item access `series[dt]`: an exploding placeholder fails descriptively
with its configured name; a real series fails only on a missing key. -/
def MinuteSeries.getitem : MinuteSeries → ℚ → Except AccessError ℚ
  | MinuteSeries.exploding n, _ => Except.error (AccessError.exploding n)
  | MinuteSeries.series l, t =>
    match minuteLookup l t with
    | some v => Except.ok v
    | none => Except.error AccessError.keyMissing

/-- The benchmark return source (external): `daily_returns(start, end)` gives
a session-indexed Series and `get_range(open_ts, close_ts)` a time-indexed
minute series. -/
structure BenchmarkSource where
  daily_returns : ℕ → ℕ → SessionSeries
  get_range : ℚ → ℚ → List (ℚ × ℚ)

/-- The signal `NoFurtherDataError` raised by the trading calendar when no
further session exists. -/
inductive NoFurtherDataError where
  | noFurtherData
deriving DecidableEq

/-- The trading calendar interface used by the tracker and the benchmark
unit.  Session labels are ordinals; timestamps are rationals. -/
structure TradingCalendar where
  next_session_label : ℕ → Except NoFurtherDataError ℕ
  open_and_close_for_session : ℕ → ℚ × ℚ
  market_open : ℕ → ℚ
  market_close : ℕ → ℚ

/-- The calendar day of a minute timestamp (`pd.TimeGrouper('D')` grouping);
timestamps count minutes, 1440 to a day. -/
def minuteDay (t : ℚ) : ℤ := Int.floor (t / 1440)

/-- Group-wise accumulator for the per-day cumulative minute returns: the
running product resets whenever the calendar day changes. -/
def minuteReturnsByDayGo (acc : ℚ) (curDay : Option ℤ) :
    List (ℚ × ℚ) → List (ℚ × ℚ)
  | [] => []
  | (t, r) :: rest =>
    let d := minuteDay t
    let acc2 := if some d = curDay then acc * (1 + r) else 1 + r
    (t, acc2 - 1) :: minuteReturnsByDayGo acc2 (some d) rest

/-- `returns.groupby(pd.TimeGrouper('D')).apply(lambda g: (g + 1).cumprod() - 1)`
(default.py lines 166-168). -/
def minuteReturnsByDay (rs : List (ℚ × ℚ)) : List (ℚ × ℚ) :=
  minuteReturnsByDayGo 1 none rs

/-- `(1 + returns).cumprod() - 1` keeping the minute index (line 169). -/
def minuteCumulativeReturns (rs : List (ℚ × ℚ)) : List (ℚ × ℚ) :=
  (rs.map (fun e => e.1)).zip (cumulativeReturnsValues (rs.map (fun e => e.2)))

/-- The private state of the BenchmarkReturns unit after
`start_of_simulation`. -/
structure BenchmarkReturnsState where
  daily_returns : SessionSeries
  daily_cumulative_returns : SessionSeries
  minute_returns : MinuteSeries
  minute_cumulative_returns : MinuteSeries
deriving DecidableEq

/-- BenchmarkReturns.start_of_simulation (default.py lines 144-169):
precompute the per-session benchmark returns over
`sessions[0] .. sessions[-1]` and their cumulative-compounded form; in daily
emission the minute-level fields become exploding placeholders named
`self._minute_returns` and `self._minute_cumulative_returns`, in minute
emission they are precomputed from `benchmark_source.get_range`.  `none`
models the IndexError of `sessions[0]` on an empty session sequence. -/
def benchmarkStartOfSimulation (emission_rate : EmissionRate)
    (trading_calendar : TradingCalendar) (benchmark_source : BenchmarkSource)
    (sessions : List ℕ) : Option BenchmarkReturnsState :=
  match sessions.head?, sessions.getLast? with
  | some s0, some sLast =>
    let dr := benchmark_source.daily_returns s0 sLast
    some { daily_returns := dr
           daily_cumulative_returns := seriesCumulativeReturns dr
           minute_returns :=
             match emission_rate with
             | EmissionRate.daily => MinuteSeries.exploding "self._minute_returns"
             | EmissionRate.minute =>
               MinuteSeries.series (minuteReturnsByDay (benchmark_source.get_range
                 (trading_calendar.market_open s0) (trading_calendar.market_close sLast)))
           minute_cumulative_returns :=
             match emission_rate with
             | EmissionRate.daily =>
               MinuteSeries.exploding "self._minute_cumulative_returns"
             | EmissionRate.minute =>
               MinuteSeries.series (minuteCumulativeReturns (benchmark_source.get_range
                 (trading_calendar.market_open s0)
                 (trading_calendar.market_close sLast))) }
  | _, _ => none

/-- BenchmarkReturns.end_of_bar (lines 171-179): bar-level lookups into the
minute series; the right-hand side `self._minute_returns[dt]` is evaluated
before anything is written into the packet. -/
def benchmarkEndOfBar (st : BenchmarkReturnsState) (p : Perf) (dt : ℚ) :
    Except AccessError Perf :=
  match st.minute_returns.getitem dt with
  | Except.error e => Except.error e
  | Except.ok v =>
    match st.minute_cumulative_returns.getitem dt with
    | Except.error e => Except.error e
    | Except.ok c =>
      Except.ok ((p.writeMinute "benchmark_returns" v).writeCumulative
        "benchmark_returns" c)

/-- BenchmarkReturns.end_of_session (lines 181-191): session-level lookups
into the precomputed daily series. -/
def benchmarkEndOfSession (st : BenchmarkReturnsState) (p : Perf) (session : ℕ) :
    Except AccessError Perf :=
  match seriesGetLabel st.daily_returns session with
  | none => Except.error AccessError.keyMissing
  | some v =>
    match seriesGetLabel st.daily_cumulative_returns session with
    | none => Except.error AccessError.keyMissing
    | some c =>
      Except.ok ((p.writeDaily "benchmark_returns" v).writeCumulative
        "benchmark_returns" c)

/-- BenchmarkReturns.end_of_simulation (lines 193-197): writes
`self._daily_cumulative_returns[-1]` (positional last element) under
`cumulative_algorithm_returns` and `self._daily_returns.tolist()` under
`daily_algorithm_returns`; fails (`none`, an IndexError) when the series is
empty. -/
def benchmarkEndOfSimulation (st : BenchmarkReturnsState) : EndOfSimulationHook :=
  fun p =>
    match (seriesValues st.daily_cumulative_returns).getLast? with
    | none => none
    | some c =>
      some (fset (fset p "cumulative_algorithm_returns" (FVal.num c))
              "daily_algorithm_returns" (FVal.nums (seriesValues st.daily_returns)))

/-- The private state of the PNL unit: the index cursor `_pnl_index` and the
session-indexed history series `_pnl`. -/
structure PNLState where
  pnl_index : ℤ
  pnl : List ℚ
deriving DecidableEq

/-- pandas positional indexing `series[i]` for an integer i on a
session-labelled series: valid positions are `-n ≤ i < n`, a negative i
addressing from the end, which `i % n` reproduces on that whole range. -/
def seriesGetPositional (l : List ℚ) (i : ℤ) : ℚ :=
  l.getD ((i % (l.length : ℤ)).toNat) 0

/-- pandas positional assignment `series[i] = v` for `-n ≤ i < n`. -/
def seriesSetPositional (l : List ℚ) (i : ℤ) (v : ℚ) : List ℚ :=
  l.set ((i % (l.length : ℤ)).toNat) v

/-- PNL.start_of_simulation (default.py lines 203-214): the cursor starts at
-1 so that it wraparound-addresses the last slot of the zero-initialized
series `pd.Series(0, index=sessions)`. -/
def pnlStartOfSimulation (sessions : List ℕ) : PNLState :=
  { pnl_index := -1, pnl := sessions.map (fun _ => 0) }

/-- PNL._compute_pnl_in_period (lines 216-217):
`ledger.portfolio.pnl - self._pnl[self._pnl_index]`. -/
def computePnlInPeriod (st : PNLState) (ledger : Ledger) : ℚ :=
  ledger.portfolio.pnl - seriesGetPositional st.pnl st.pnl_index

/-- PNL.end_of_bar (lines 219-225). -/
def pnlEndOfBar (st : PNLState) (ledger : Ledger) (p : Perf) : Perf :=
  (p.writeMinute "pnl" (computePnlInPeriod st ledger)).writeCumulative "pnl"
    ledger.portfolio.pnl

/-- PNL.end_of_session (lines 227-235): write the in-period delta and the
cumulative PnL, then advance the cursor and record the new cumulative PnL in
its slot. -/
def pnlEndOfSession (st : PNLState) (ledger : Ledger) (p : Perf) : Perf × PNLState :=
  let p2 := (p.writeDaily "pnl" (computePnlInPeriod st ledger)).writeCumulative
    "pnl" ledger.portfolio.pnl
  let i := st.pnl_index + 1
  (p2, { pnl_index := i, pnl := seriesSetPositional st.pnl i ledger.portfolio.pnl })

/-- PNL.end_of_simulation (lines 237-239). -/
def pnlEndOfSimulation (ledger : Ledger) (st : PNLState) : EndOfSimulationHook :=
  fun p =>
    some (fset (fset p "total_pnl" (FVal.num ledger.portfolio.pnl)) "daily_pnl"
            (FVal.nums st.pnl))

/-- The private state of the CashFlow unit: `_previous_cash_flow`. -/
structure CashFlowState where
  previous_cash_flow : ℚ
deriving DecidableEq

/-- CashFlow.start_of_simulation (default.py lines 249-255). -/
def cashFlowStartOfSimulation : CashFlowState := { previous_cash_flow := 0 }

/-- CashFlow.end_of_bar (lines 257-266): writes the in-period cash flow under
`minute_perf['capital_used']` and the cumulative cash flow under
`cumulative_perf['pnl']`. -/
def cashFlowEndOfBar (st : CashFlowState) (ledger : Ledger) (p : Perf) : Perf :=
  let cash_flow := ledger.portfolio.cash_flow
  (p.writeMinute "capital_used" (st.previous_cash_flow - cash_flow)).writeCumulative
    "pnl" cash_flow

/-- CashFlow.end_of_session (lines 268-278): writes the in-period cash flow
under `daily_perf['capital_used']`, the cumulative cash flow under
`cumulative_perf['cash_flow']`, and rolls `_previous_cash_flow` forward. -/
def cashFlowEndOfSession (st : CashFlowState) (ledger : Ledger) (p : Perf) :
    Perf × CashFlowState :=
  let cash_flow := ledger.portfolio.cash_flow
  ((p.writeDaily "capital_used" (st.previous_cash_flow - cash_flow)).writeCumulative
     "cash_flow" cash_flow,
   { previous_cash_flow := cash_flow })

/-- SimpleLedgerField.end_of_simulation (lines 53-54):
`packet[self._packet_field] = self._daily_value.tolist()`. -/
def simpleEndOfSimulation (u : SimpleLedgerField) (dv : DailyValueSeries) :
    EndOfSimulationHook :=
  fun p => some (fset p u.packet_field (FVal.optnums (dv.map (fun e => e.2))))

/-- The registry entry `StartOfPeriodLedgerField('portfolio.positions_exposure',
'starting_exposure')` (default.py lines 290-293). -/
def startingExposureUnit : StartOfPeriodLedgerField :=
  { get_ledger_field := fun l => l.portfolio.positions_exposure
    packet_field := "starting_exposure" }

/-- The registry entry `SimpleLedgerField('portfolio.positions_exposure',
'ending_exposure')` (line 294). -/
def endingExposureUnit : SimpleLedgerField :=
  { get_ledger_field := fun l => l.portfolio.positions_exposure
    packet_field := "ending_exposure" }

/-- The registry entry `StartOfPeriodLedgerField('portfolio.positions_exposure',
'starting_value')` (lines 296-299): its accessor reads
`portfolio.positions_exposure`. -/
def startingValueUnit : StartOfPeriodLedgerField :=
  { get_ledger_field := fun l => l.portfolio.positions_exposure
    packet_field := "starting_value" }

/-- The registry entry `SimpleLedgerField('portfolio.positions_value',
'ending_value')` (line 300): its accessor reads `portfolio.positions_value`. -/
def endingValueUnit : SimpleLedgerField :=
  { get_ledger_field := fun l => l.portfolio.positions_value
    packet_field := "ending_value" }

/-- The packet fields of the twelve SimpleLedgerField entries of
`default_metrics()` (default.py lines 294-316): the explicit names and, for
the entries built without a `packet_field`, the last component of the dotted
ledger path. -/
def simpleFieldPacketFields : List String :=
  ["ending_exposure", "ending_value", "ending_cash", "portfolio_value",
   "longs_count", "shorts_count", "long_value", "short_value",
   "long_exposure", "short_exposure", "gross_leverage", "net_leverage"]

/-- A Python value passed positionally to a metric hook.  The tags record
which simulation object is being passed (the tracker's ledger, the emission
rate, the trading calendar, the session sequence, the benchmark source). -/
inductive PyArg where
  | ledgerArg (l : Ledger)
  | rateArg (r : EmissionRate)
  | calendarArg
  | sessionsArg (s : List ℕ)
  | benchmarkArg
deriving DecidableEq

/-- The positional argument list that `MetricsTracker.__init__` hands to the
bound `start_of_simulation` dispatch (tracker.py lines 123-128): it passes
`emission_rate, trading_calendar, sessions, benchmark_source` and nothing
else. -/
def trackerStartOfSimulationCallArgs (emission_rate : EmissionRate)
    (sessions : List ℕ) : List PyArg :=
  [PyArg.rateArg emission_rate, PyArg.calendarArg, PyArg.sessionsArg sessions,
   PyArg.benchmarkArg]

/-- The parameters (after `self`) that every metric class of default.py
declares for `start_of_simulation` (lines 27-32, 75-80, 102-107, 144-149,
203-208 and 249-254 all agree), `ledger` first. -/
def metricStartOfSimulationParams : List String :=
  ["ledger", "emission_rate", "trading_calendar", "sessions", "benchmark_source"]

/-- Python positional binding of a call with no defaults and no keywords:
each declared parameter is bound to exactly one argument in order, and any
count mismatch raises a TypeError before the body runs. -/
def bindPositionalArgs (params : List String) (args : List PyArg) :
    Except String (List (String × PyArg)) :=
  if args.length = params.length then Except.ok (params.zip args)
  else Except.error "TypeError: positional argument count mismatch"

/-- The session/time state the MetricsTracker carries (tracker.py lines
58-90), together with the ledger read model it creates at construction.  The
trading calendar and the hook dispatch lists are passed to the operations
explicitly. -/
structure MetricsTrackerState where
  emission_rate : EmissionRate
  first_session : ℕ
  last_session : ℕ
  capital_base : ℚ
  current_session : ℕ
  market_open : ℚ
  market_close : ℚ
  session_count : ℕ
  total_session_count : ℕ
  ledger : Ledger
deriving DecidableEq

/-- The two zero-argument closures defined in `MetricsTracker.__init__`
(tracker.py lines 113-118), one of which is bound to `self.progress`. -/
inductive ProgressClosure where
  | minuteProgress
  | dailyProgress
deriving DecidableEq

/-- Which closure construction binds (lines 113-121): the constant-1.0 one in
minute mode, the ratio one otherwise. -/
def progressClosureFor (emission_rate : EmissionRate) : ProgressClosure :=
  match emission_rate with
  | EmissionRate.minute => ProgressClosure.minuteProgress
  | EmissionRate.daily => ProgressClosure.dailyProgress

/-- Calling a progress closure against the tracker state current at call
time: `1.0` for the minute closure, `session_count / total_session_count`
for the daily closure (`from __future__ import division`, true division). -/
def callProgress (m : ProgressClosure) (st : MetricsTrackerState) : ℚ :=
  match m with
  | ProgressClosure.minuteProgress => 1
  | ProgressClosure.dailyProgress =>
    (st.session_count : ℚ) / (st.total_session_count : ℚ)

/-- A top-level value of the daily packet dict: a numeric scalar, or a stored
function object (a bound closure that has not been called). -/
inductive TopValue where
  | num (q : ℚ)
  | method (m : ProgressClosure)
deriving DecidableEq

/-- Whether a top-level packet value is a numeric scalar. -/
def TopValue.isNum : TopValue → Bool
  | TopValue.num _ => true
  | TopValue.method _ => false

/-- The daily perf packet assembled by `handle_market_close` (tracker.py
lines 228-239): simulation-wide metadata, the period sub-mappings, and the
`progress` entry. -/
structure DailyPacket where
  period_start : ℕ
  period_end : ℕ
  capital_base : ℚ
  daily_perf : FieldMap
  cumulative_perf : FieldMap
  progress : TopValue
  cumulative_risk_metrics : FieldMap
deriving DecidableEq

/-- A mutating instruction the tracker issues to its ledger (the ledger's
internal bookkeeping is an external collaborator; the tracker's calls into
it are recorded in order). -/
inductive LedgerInstr where
  | sync_last_sale_prices (dt : ℚ)
  | ledger_end_of_session (session : ℕ)
  | process_dividends (next_session : ℕ)
deriving DecidableEq

/-- Whether an instruction is a `process_dividends` call. -/
def isProcessDividends : LedgerInstr → Bool
  | LedgerInstr.process_dividends _ => true
  | _ => false

/-- The `try: next_session_label / except NoFurtherDataError: next_session =
None` block of handle_market_close (tracker.py lines 221-226): the
calendar's no-further-sessions signal is caught and turned into `None`. -/
def nextSessionOrNone (cal : TradingCalendar) (completed_session : ℕ) : Option ℕ :=
  match cal.next_session_label completed_session with
  | Except.ok s => some s
  | Except.error _ => none

/-- The packet literal of handle_market_close (lines 228-239): the `progress`
entry stores `self.progress` itself, the bound closure, uncalled. -/
def basePacket (st : MetricsTrackerState) : DailyPacket :=
  { period_start := st.first_session
    period_end := st.last_session
    capital_base := st.capital_base
    daily_perf := [("period_open", st.market_open), ("period_close", st.market_close)]
    cumulative_perf := []
    progress := TopValue.method (progressClosureFor st.emission_rate)
    cumulative_risk_metrics := [] }

/-- An `end_of_session` hook bound at construction: it receives the packet,
the ledger and the completed session label. -/
abbrev SessionHook := DailyPacket → Ledger → ℕ → DailyPacket

/-- What one `handle_market_close` call produces: the returned packet, the
tracker state afterwards, and the instructions issued to the ledger in
order. -/
structure MarketCloseResult where
  packet : DailyPacket
  state : MetricsTrackerState
  ledger_instructions : List LedgerInstr
deriving DecidableEq

/-- MetricsTracker.handle_market_close (tracker.py lines 191-262): sync last
sale prices in daily mode only; increment the session counter; ask the
calendar for the next session, catching the no-further-sessions signal;
assemble the packet; tell the ledger the session ended and run the
session-close dispatch list; then, unless the next session is absent or
at/past `last_session`, process dividends for the next session and advance
`current_session` and the cached open/close. -/
def handle_market_close (cal : TradingCalendar) (sessionHooks : List SessionHook)
    (st : MetricsTrackerState) (dt : ℚ) : MarketCloseResult :=
  let completed_session := st.current_session
  let syncInstrs : List LedgerInstr :=
    if st.emission_rate = EmissionRate.daily
    then [LedgerInstr.sync_last_sale_prices dt] else []
  let st1 := { st with session_count := st.session_count + 1 }
  let next_session := nextSessionOrNone cal completed_session
  let instrs := syncInstrs ++ [LedgerInstr.ledger_end_of_session completed_session]
  let packet := sessionHooks.foldl (fun p h => h p st.ledger completed_session)
    (basePacket st)
  match next_session with
  | none => { packet := packet, state := st1, ledger_instructions := instrs }
  | some ns =>
    if st.last_session ≤ ns then
      { packet := packet, state := st1, ledger_instructions := instrs }
    else
      { packet := packet
        state := { st1 with
                   current_session := ns
                   market_open := (cal.open_and_close_for_session ns).1
                   market_close := (cal.open_and_close_for_session ns).2 }
        ledger_instructions := instrs ++ [LedgerInstr.process_dividends ns] }

/-- The dict `packet = {}` handle_minute_close starts from, and into which
the bar hooks write. -/
abbrev BarPacket := FieldMap

/-- An `end_of_bar` hook bound at construction: it receives the packet, the
ledger and the closing minute. -/
abbrev BarHook := BarPacket → Ledger → ℚ → BarPacket

/-- The construction-time hook binding loop for one hook name (tracker.py
lines 93-99): `getattr` each metric, keeping the implementations and
dropping the AttributeError cases (`none`). -/
def collectEndOfBarHooks (metric_end_of_bar : List (Option BarHook)) : List BarHook :=
  metric_end_of_bar.filterMap (fun h => h)

/-- MetricsTracker.handle_minute_close (tracker.py lines 167-189): sync last
sale prices, build an empty packet, invoke the bar-close dispatch list, and
return the packet.  The body never consults `emission_rate`. -/
def handle_minute_close (st : MetricsTrackerState) (endOfBarHooks : List BarHook)
    (dt : ℚ) : List LedgerInstr × BarPacket :=
  ([LedgerInstr.sync_last_sale_prices dt],
   endOfBarHooks.foldl (fun p h => h p st.ledger dt) [])

/-- The simulation-end dispatch: the bound `end_of_simulation` hooks run in
order over the packet; a hook's exception aborts the call (`none`). -/
def runEndOfSimulationHooks (hooks : List EndOfSimulationHook) (p : FlatPacket) :
    Option FlatPacket :=
  match hooks with
  | [] => some p
  | h :: rest =>
    match h p with
    | none => none
    | some p2 => runEndOfSimulationHooks rest p2

/-- MetricsTracker.handle_simulation_end (tracker.py lines 264-280): build an
empty flat packet and invoke the simulation-end dispatch list. -/
def handle_simulation_end (hooks : List EndOfSimulationHook) : Option FlatPacket :=
  runEndOfSimulationHooks hooks []

/-- Looking up the key just written into a sub-mapping yields the value. -/
lemma lookupField_head (m : FieldMap) (k : String) (v : ℚ) :
    lookupField ((k, v) :: m) k = some v := by
  simp [lookupField]

/-- Looking up a different key skips past a write. -/
lemma lookupField_tail (m : FieldMap) (k k2 : String) (v : ℚ) (h : k ≠ k2) :
    lookupField ((k2, v) :: m) k = lookupField m k := by
  simp [lookupField, h]

/-- Every element of the PNL unit's freshly initialized history series is
zero, so every position (the wraparound-addressed last slot included) reads
zero. -/
lemma seriesGetPositional_fresh (n : ℕ) (i : ℤ) :
    seriesGetPositional (List.replicate n (0 : ℚ)) i = 0 := by
  unfold seriesGetPositional
  generalize ((i % (((List.replicate n (0 : ℚ))).length : ℤ)).toNat) = k
  induction n generalizing k with
  | zero => simp
  | succ n2 ih =>
    cases k with
    | zero => simp
    | succ k2 => simp only [List.replicate_succ, List.getD_cons_succ]; exact ih k2

/-- C10: every invocation of CashFlow.end_of_bar writes the ledger's
cumulative cash flow under `cumulative_perf['pnl']` — in particular when it
runs right after PNL.end_of_bar in the bar dispatch order, the bar packet's
cumulative `pnl` field ends up holding cumulative cash flow — whereas
CashFlow.end_of_session writes the same value under
`cumulative_perf['cash_flow']`. -/
theorem cash_flow_end_of_bar_writes_cumulative_pnl (cst : CashFlowState)
    (pst : PNLState) (ledger : Ledger) (p : Perf) :
    lookupField
        (cashFlowEndOfBar cst ledger (pnlEndOfBar pst ledger p)).cumulative_perf
        "pnl"
      = some ledger.portfolio.cash_flow ∧
    lookupField (cashFlowEndOfBar cst ledger p).cumulative_perf "pnl"
      = some ledger.portfolio.cash_flow ∧
    lookupField (cashFlowEndOfSession cst ledger p).1.cumulative_perf "cash_flow"
      = some ledger.portfolio.cash_flow := by
  refine ⟨?_, ?_, ?_⟩ <;>
    simp [cashFlowEndOfBar, cashFlowEndOfSession, pnlEndOfBar, Perf.writeMinute,
      Perf.writeDaily, Perf.writeCumulative, lookupField]

/-- C8: on the first session — before any end_of_session has advanced the
cursor — the PNL unit's in-period delta equals the ledger's raw cumulative
PnL, both on every bar (`minute_perf['pnl']`) and at the session close
(`daily_perf['pnl']`), because the cursor -1 wraparound-addresses the last
slot of the zero-initialized session-indexed history series.  The ledger
(hence the starting capital) is arbitrary. -/
theorem pnl_first_session_delta_equals_cumulative (sessions : List ℕ)
    (hne : sessions ≠ []) (ledger : Ledger) (p : Perf) :
    lookupField (pnlEndOfBar (pnlStartOfSimulation sessions) ledger p).minute_perf
        "pnl"
      = some ledger.portfolio.pnl ∧
    lookupField
        ((pnlEndOfSession (pnlStartOfSimulation sessions) ledger p).1).daily_perf
        "pnl"
      = some ledger.portfolio.pnl ∧
    seriesGetPositional (pnlStartOfSimulation sessions).pnl
        (pnlStartOfSimulation sessions).pnl_index
      = 0 := by
  have hz := seriesGetPositional_fresh sessions.length (-1)
  refine ⟨?_, ?_, ?_⟩ <;>
    simp [pnlEndOfBar, pnlEndOfSession, pnlStartOfSimulation, computePnlInPeriod,
      Perf.writeMinute, Perf.writeDaily, Perf.writeCumulative, lookupField, hz]

/-- C8 witness: a concrete three-session simulation with an arbitrary
nonzero cumulative PnL. -/
def c8Portfolio : Portfolio :=
  { returns := 0, pnl := 37, cash_flow := 0, positions_value := 0,
    positions_exposure := 0, portfolio_value := 100037, cash := 100037 }

/-- The ledger fixture for the PNL first-session witness. -/
def c8Ledger : Ledger := { portfolio := c8Portfolio, daily_returns := [] }

/-- C8 witness: the first-session delta equals the raw cumulative PnL on the
concrete three-session fixture. -/
theorem pnl_first_session_delta_equals_cumulative_witness :
    lookupField
        (pnlEndOfBar (pnlStartOfSimulation [0, 1, 2]) c8Ledger {}).minute_perf "pnl"
      = some 37 ∧
    lookupField
        ((pnlEndOfSession (pnlStartOfSimulation [0, 1, 2]) c8Ledger {}).1).daily_perf
        "pnl"
      = some 37 := by
  have h := pnl_first_session_delta_equals_cumulative [0, 1, 2] (by decide) c8Ledger {}
  exact ⟨h.1, h.2.1⟩

/-- Decidable equality for `Except`, so concrete hook results can be
evaluated by `decide`. -/
instance instDecidableEqExcept {e a : Type} [DecidableEq e] [DecidableEq a] :
    DecidableEq (Except e a)
  | Except.ok x, Except.ok y =>
    if h : x = y then isTrue (congrArg Except.ok h)
    else isFalse (fun hc => h (Except.ok.inj hc))
  | Except.ok _, Except.error _ => isFalse (fun hc => Except.noConfusion hc)
  | Except.error _, Except.ok _ => isFalse (fun hc => Except.noConfusion hc)
  | Except.error x, Except.error y =>
    if h : x = y then isTrue (congrArg Except.error h)
    else isFalse (fun hc => h (Except.error.inj hc))

/-- A ledger in which positions exposure and positions value differ (as with
derivative positions), observed at the first session's close. -/
def c3Ledger1 : Ledger :=
  { portfolio :=
    { returns := 0, pnl := 0, cash_flow := 0, positions_value := 7,
      positions_exposure := 5, portfolio_value := 100007, cash := 100000 }
    daily_returns := [] }

/-- The same ledger at the second session's close. -/
def c3Ledger2 : Ledger :=
  { portfolio :=
    { returns := 0, pnl := 0, cash_flow := 0, positions_value := 11,
      positions_exposure := 13, portfolio_value := 100011, cash := 100000 }
    daily_returns := [] }

/-- The ledger at construction time, before the first session. -/
def c3Ledger0 : Ledger :=
  { portfolio :=
    { returns := 0, pnl := 0, cash_flow := 0, positions_value := 0,
      positions_exposure := 0, portfolio_value := 100000, cash := 100000 }
    daily_returns := [] }

/-- C3: evaluating the registry's `starting_value` and `ending_value` units
over two sessions of a ledger where `positions_exposure ≠ positions_value`:
the `starting_value` unit's accessor reads `portfolio.positions_exposure`
(the registry binds it to that dotted path), so the second session's
`daily_perf['starting_value']` is the first session's positions exposure (5)
and differs from the first session's `daily_perf['ending_value']`, which is
the first session's positions value (7). -/
theorem starting_value_reads_positions_exposure :
    startingValueUnit.get_ledger_field c3Ledger1
      = c3Ledger1.portfolio.positions_exposure ∧
    endingValueUnit.get_ledger_field c3Ledger1
      = c3Ledger1.portfolio.positions_value ∧
    lookupField
        (startingValueUnit.end_of_session
          (startingValueUnit.end_of_session
            (startingValueUnit.start_of_simulation c3Ledger0) {} c3Ledger1).2
          {} c3Ledger2).1.daily_perf
        "starting_value"
      = some 5 ∧
    lookupField
        (endingValueUnit.end_of_session
          (SimpleLedgerField.start_of_simulation [1, 2]) {} c3Ledger1 1).1.daily_perf
        "ending_value"
      = some 7 ∧
    (5 : ℚ) ≠ 7 := by
  refine ⟨rfl, rfl, ?_, ?_, by decide⟩ <;> decide

/-- C1: the `start_of_simulation` invocation in `MetricsTracker.__init__`
passes four positional arguments whose first is the emission rate, while
every default metric's `start_of_simulation` declares five parameters with
`ledger` first; Python's positional binding of that call therefore raises a
TypeError, and in particular the ledger state object is never passed. -/
theorem tracker_start_of_simulation_call_drops_ledger :
    (trackerStartOfSimulationCallArgs EmissionRate.daily [0, 1, 2]).length = 4 ∧
    metricStartOfSimulationParams.length = 5 ∧
    (trackerStartOfSimulationCallArgs EmissionRate.daily [0, 1, 2]).head?
      = some (PyArg.rateArg EmissionRate.daily) ∧
    metricStartOfSimulationParams.head? = some "ledger" ∧
    bindPositionalArgs metricStartOfSimulationParams
        (trackerStartOfSimulationCallArgs EmissionRate.daily [0, 1, 2])
      = Except.error "TypeError: positional argument count mismatch" := by
  decide

/-- An all-zero portfolio for the tracker fixtures. -/
def zeroPortfolio : Portfolio :=
  { returns := 0, pnl := 0, cash_flow := 0, positions_value := 0,
    positions_exposure := 0, portfolio_value := 0, cash := 0 }

/-- The tracker fixtures' ledger read model. -/
def trackerLedger : Ledger := { portfolio := zeroPortfolio, daily_returns := [] }

/-- A concrete trading calendar whose sessions run up to label 12: each
session has a successor until the last, after which the calendar signals
NoFurtherDataError. -/
def c2Calendar : TradingCalendar :=
  { next_session_label := fun s =>
      if s < 12 then Except.ok (s + 1)
      else Except.error NoFurtherDataError.noFurtherData
    open_and_close_for_session := fun s => ((s : ℚ) * 1440 + 570, (s : ℚ) * 1440 + 960)
    market_open := fun s => (s : ℚ) * 1440 + 570
    market_close := fun s => (s : ℚ) * 1440 + 960 }

/-- A daily-mode tracker over the three sessions 10..12, before its first
`handle_market_close`. -/
def c2DailyState : MetricsTrackerState :=
  { emission_rate := EmissionRate.daily
    first_session := 10
    last_session := 12
    capital_base := 100000
    current_session := 10
    market_open := 10 * 1440 + 570
    market_close := 10 * 1440 + 960
    session_count := 0
    total_session_count := 3
    ledger := trackerLedger }

/-- The same tracker configured for minute emission. -/
def c2MinuteState : MetricsTrackerState :=
  { c2DailyState with emission_rate := EmissionRate.minute }

/-- C2: evaluating `handle_market_close` on a concrete daily-mode tracker
over three sessions (and on its minute-mode twin): the packet's `progress`
entry holds the bound progress closure itself — the dict stores
`self.progress` uncalled — so it is not a numeric scalar; calling the stored
closure against the post-call tracker state would yield
`session_count / total_session_count = 1/3` (resp. the constant `1.0`),
which is the value the claim expected the field to carry. -/
theorem market_close_packet_progress_is_bound_method :
    (handle_market_close c2Calendar [] c2DailyState (10 * 1440 + 960)).packet.progress
      = TopValue.method ProgressClosure.dailyProgress ∧
    TopValue.isNum
        (handle_market_close c2Calendar [] c2DailyState
          (10 * 1440 + 960)).packet.progress
      = false ∧
    callProgress ProgressClosure.dailyProgress
        (handle_market_close c2Calendar [] c2DailyState (10 * 1440 + 960)).state
      = 1 / 3 ∧
    (handle_market_close c2Calendar [] c2MinuteState
        (10 * 1440 + 960)).packet.progress
      = TopValue.method ProgressClosure.minuteProgress ∧
    TopValue.isNum
        (handle_market_close c2Calendar [] c2MinuteState
          (10 * 1440 + 960)).packet.progress
      = false ∧
    callProgress ProgressClosure.minuteProgress
        (handle_market_close c2Calendar [] c2MinuteState (10 * 1440 + 960)).state
      = 1 := by
  refine ⟨rfl, rfl, ?_, rfl, rfl, rfl⟩
  show ((1 : ℕ) : ℚ) / ((3 : ℕ) : ℚ) = 1 / 3
  norm_num

/-- A caller-supplied metric implementing only `end_of_bar`: its hook marks
the packet it is dispatched on. -/
def markEndOfBarHook : BarHook := fun p _ _ => ("end_of_bar_fired", 1) :: p

/-- C4 counterexample: on the concrete daily-mode tracker, with one
registered metric implementing `end_of_bar`, `handle_minute_close` is
neither prevented nor does it fail: it silently dispatches the bar hook —
the returned packet carries the hook's write — exactly as it would in minute
mode. -/
theorem minute_close_daily_mode_dispatches_end_of_bar :
    c2DailyState.emission_rate = EmissionRate.daily ∧
    handle_minute_close c2DailyState (collectEndOfBarHooks [some markEndOfBarHook])
        (10 * 1440 + 571)
      = ([LedgerInstr.sync_last_sale_prices (10 * 1440 + 571)],
         [("end_of_bar_fired", 1)]) ∧
    lookupField
        (handle_minute_close c2DailyState
          (collectEndOfBarHooks [some markEndOfBarHook]) (10 * 1440 + 571)).2
        "end_of_bar_fired"
      = some 1 := by
  refine ⟨rfl, rfl, by decide⟩

/-- C4 amended: `handle_minute_close` performs no emission-rate check at
all — invoked on a daily-mode tracker it behaves exactly as on the
minute-mode tracker, dispatching `end_of_bar` to every hook the construction
collected, in order, over the empty packet, and returning the result. -/
theorem handle_minute_close_ignores_emission_rate (st : MetricsTrackerState)
    (hooks : List BarHook) (dt : ℚ) :
    handle_minute_close { st with emission_rate := EmissionRate.daily } hooks dt
      = handle_minute_close { st with emission_rate := EmissionRate.minute } hooks dt ∧
    (handle_minute_close st hooks dt).2
      = hooks.foldl (fun p h => h p st.ledger dt) [] :=
  ⟨rfl, rfl⟩

/-- The instructions issued before the dividend branch — the optional price
sync and the ledger's end-of-session call — contain no dividend processing. -/
lemma filter_isProcessDividends_base (rate : EmissionRate) (dt : ℚ) (s : ℕ) :
    ((if rate = EmissionRate.daily then [LedgerInstr.sync_last_sale_prices dt]
      else [])
     ++ [LedgerInstr.ledger_end_of_session s]).filter isProcessDividends = [] := by
  cases rate <;> simp [isProcessDividends]

/-- C5: when the calendar's next-session lookup signals no further sessions
for the just-completed session, `handle_market_close` catches the signal
inside the call: it still returns the assembled daily packet (the base
packet run through the session-close dispatch list, with the completed
session's open/close in `daily_perf`), treats the next session as absent —
`current_session` stays put and no dividend processing is instructed — and
only the session counter advances. -/
theorem calendar_exhaustion_is_caught (cal : TradingCalendar)
    (hooks : List SessionHook) (st : MetricsTrackerState) (dt : ℚ)
    (h : cal.next_session_label st.current_session
      = Except.error NoFurtherDataError.noFurtherData) :
    handle_market_close cal hooks st dt
      = { packet := hooks.foldl (fun p h2 => h2 p st.ledger st.current_session)
            (basePacket st)
          state := { st with session_count := st.session_count + 1 }
          ledger_instructions :=
            (if st.emission_rate = EmissionRate.daily
             then [LedgerInstr.sync_last_sale_prices dt] else [])
            ++ [LedgerInstr.ledger_end_of_session st.current_session] } ∧
    (handle_market_close cal hooks st dt).state.current_session
      = st.current_session ∧
    (handle_market_close cal hooks st dt).ledger_instructions.filter
        isProcessDividends
      = [] := by
  have hn : nextSessionOrNone cal st.current_session = none := by
    unfold nextSessionOrNone
    rw [h]
  have he : handle_market_close cal hooks st dt
      = { packet := hooks.foldl (fun p h2 => h2 p st.ledger st.current_session)
            (basePacket st)
          state := { st with session_count := st.session_count + 1 }
          ledger_instructions :=
            (if st.emission_rate = EmissionRate.daily
             then [LedgerInstr.sync_last_sale_prices dt] else [])
            ++ [LedgerInstr.ledger_end_of_session st.current_session] } := by
    simp only [handle_market_close, hn]
  refine ⟨he, ?_, ?_⟩
  · rw [he]
  · rw [he]
    exact filter_isProcessDividends_base st.emission_rate dt st.current_session

/-- A tracker state whose calendar is already exhausted: session 20 is the
last session the exhausted calendar knows. -/
def c5State : MetricsTrackerState :=
  { emission_rate := EmissionRate.daily
    first_session := 18
    last_session := 20
    capital_base := 100000
    current_session := 20
    market_open := 29370
    market_close := 29760
    session_count := 2
    total_session_count := 3
    ledger := trackerLedger }

/-- A calendar that signals no further sessions for every label. -/
def c5Calendar : TradingCalendar :=
  { next_session_label := fun _ => Except.error NoFurtherDataError.noFurtherData
    open_and_close_for_session := fun s => ((s : ℚ) * 1440 + 570, (s : ℚ) * 1440 + 960)
    market_open := fun s => (s : ℚ) * 1440 + 570
    market_close := fun s => (s : ℚ) * 1440 + 960 }

/-- C5 witness: on the exhausted concrete calendar the call returns the
packet for the closed session, keeps `current_session = 20`, and issues no
dividend instruction. -/
theorem calendar_exhaustion_is_caught_witness :
    handle_market_close c5Calendar [] c5State 29760
      = { packet := basePacket c5State
          state := { c5State with session_count := 3 }
          ledger_instructions :=
            [LedgerInstr.sync_last_sale_prices 29760,
             LedgerInstr.ledger_end_of_session 20] } ∧
    (handle_market_close c5Calendar [] c5State 29760).state.current_session
      = 20 ∧
    (handle_market_close c5Calendar [] c5State 29760).ledger_instructions.filter
        isProcessDividends
      = [] := by
  have h := calendar_exhaustion_is_caught c5Calendar [] c5State 29760 rfl
  exact ⟨h.1.trans rfl, h.2.1.trans rfl, h.2.2⟩

/-- C6: the frame effect of one `handle_market_close` call, for every
calendar, dispatch list, tracker state and closing time: the packet is
always the base packet run through the session-close hooks; when the next
session is absent or at/after `last_session`, the tracker's
`current_session`, `market_open` and `market_close` are unchanged and no
`process_dividends` instruction is issued; otherwise exactly one
`process_dividends` instruction for the next session is issued and
`current_session` and the cached open/close advance to that session. -/
theorem market_close_advance_frame (cal : TradingCalendar)
    (hooks : List SessionHook) (st : MetricsTrackerState) (dt : ℚ) :
    (handle_market_close cal hooks st dt).packet
      = hooks.foldl (fun p h => h p st.ledger st.current_session) (basePacket st) ∧
    (handle_market_close cal hooks st dt).state.current_session
      = (match nextSessionOrNone cal st.current_session with
         | none => st.current_session
         | some ns => if st.last_session ≤ ns then st.current_session else ns) ∧
    (handle_market_close cal hooks st dt).state.market_open
      = (match nextSessionOrNone cal st.current_session with
         | none => st.market_open
         | some ns =>
           if st.last_session ≤ ns then st.market_open
           else (cal.open_and_close_for_session ns).1) ∧
    (handle_market_close cal hooks st dt).state.market_close
      = (match nextSessionOrNone cal st.current_session with
         | none => st.market_close
         | some ns =>
           if st.last_session ≤ ns then st.market_close
           else (cal.open_and_close_for_session ns).2) ∧
    (handle_market_close cal hooks st dt).ledger_instructions.filter
        isProcessDividends
      = (match nextSessionOrNone cal st.current_session with
         | none => []
         | some ns =>
           if st.last_session ≤ ns then []
           else [LedgerInstr.process_dividends ns]) := by
  cases hn : nextSessionOrNone cal st.current_session with
  | none =>
    have he : handle_market_close cal hooks st dt
        = { packet := hooks.foldl (fun p h => h p st.ledger st.current_session)
              (basePacket st)
            state := { st with session_count := st.session_count + 1 }
            ledger_instructions :=
              (if st.emission_rate = EmissionRate.daily
               then [LedgerInstr.sync_last_sale_prices dt] else [])
              ++ [LedgerInstr.ledger_end_of_session st.current_session] } := by
      simp only [handle_market_close, hn]
    refine ⟨?_, ?_, ?_, ?_, ?_⟩ <;> rw [he]
    exact filter_isProcessDividends_base st.emission_rate dt st.current_session
  | some ns =>
    by_cases hle : st.last_session ≤ ns
    · have he : handle_market_close cal hooks st dt
          = { packet := hooks.foldl (fun p h => h p st.ledger st.current_session)
                (basePacket st)
              state := { st with session_count := st.session_count + 1 }
              ledger_instructions :=
                (if st.emission_rate = EmissionRate.daily
                 then [LedgerInstr.sync_last_sale_prices dt] else [])
                ++ [LedgerInstr.ledger_end_of_session st.current_session] } := by
        simp only [handle_market_close, hn, if_pos hle]
      refine ⟨?_, ?_, ?_, ?_, ?_⟩ <;> rw [he] <;> dsimp only
      · rw [if_pos hle]
      · rw [if_pos hle]
      · rw [if_pos hle]
      · rw [if_pos hle]
        exact filter_isProcessDividends_base st.emission_rate dt st.current_session
    · have he : handle_market_close cal hooks st dt
          = { packet := hooks.foldl (fun p h => h p st.ledger st.current_session)
                (basePacket st)
              state := { st with
                         session_count := st.session_count + 1
                         current_session := ns
                         market_open := (cal.open_and_close_for_session ns).1
                         market_close := (cal.open_and_close_for_session ns).2 }
              ledger_instructions :=
                ((if st.emission_rate = EmissionRate.daily
                  then [LedgerInstr.sync_last_sale_prices dt] else [])
                 ++ [LedgerInstr.ledger_end_of_session st.current_session])
                ++ [LedgerInstr.process_dividends ns] } := by
        simp only [handle_market_close, hn, if_neg hle]
      refine ⟨?_, ?_, ?_, ?_, ?_⟩ <;> rw [he] <;> dsimp only
      · rw [if_neg hle]
      · rw [if_neg hle]
      · rw [if_neg hle]
      · rw [if_neg hle, List.filter_append,
          filter_isProcessDividends_base st.emission_rate dt st.current_session]
        simp [isProcessDividends]

/-- C7: in daily emission mode, over any nonempty session sequence, the
benchmark unit's start_of_simulation completes without error and installs an
exploding placeholder for the minute series; every subsequent end_of_bar
call fails immediately with the descriptive error naming the misused field
`self._minute_returns` (before anything is written to the packet); and every
end_of_session call whose session label is present in the precomputed daily
series succeeds, writing the precomputed daily return and cumulative daily
return. -/
theorem benchmark_daily_mode_deferred_failure (cal : TradingCalendar)
    (source : BenchmarkSource) (sessions : List ℕ) (hne : sessions ≠ []) :
    ∃ st, benchmarkStartOfSimulation EmissionRate.daily cal source sessions
        = some st ∧
      st.minute_returns = MinuteSeries.exploding "self._minute_returns" ∧
      (∀ p dt, benchmarkEndOfBar st p dt
        = Except.error (AccessError.exploding "self._minute_returns")) ∧
      (∀ p session v c,
        seriesGetLabel st.daily_returns session = some v →
        seriesGetLabel st.daily_cumulative_returns session = some c →
        benchmarkEndOfSession st p session
          = Except.ok ((p.writeDaily "benchmark_returns" v).writeCumulative
              "benchmark_returns" c)) := by
  cases sessions with
  | nil => exact absurd rfl hne
  | cons a t =>
    cases hL : (a :: t).getLast? with
    | none =>
      rw [List.getLast?_eq_getLast_of_ne_nil (List.cons_ne_nil a t)] at hL
      cases hL
    | some sLast =>
      refine ⟨{ daily_returns := source.daily_returns a sLast
                daily_cumulative_returns :=
                  seriesCumulativeReturns (source.daily_returns a sLast)
                minute_returns := MinuteSeries.exploding "self._minute_returns"
                minute_cumulative_returns :=
                  MinuteSeries.exploding "self._minute_cumulative_returns" },
              ?_, rfl, ?_, ?_⟩
      · unfold benchmarkStartOfSimulation
        rw [hL]
        rfl
      · intro p dt
        rfl
      · intro p session v c h1 h2
        unfold benchmarkEndOfSession
        rw [h1, h2]

/-- The benchmark source fixture: two sessions with returns 1/10 and 1/5. -/
def c7Source : BenchmarkSource :=
  { daily_returns := fun s0 s1 => [(s0, 1 / 10), (s1, 1 / 5)]
    get_range := fun _ _ => [] }

/-- The benchmark unit's state after a daily-mode start_of_simulation over
sessions 3 and 4 of the fixture source. -/
def c7State : BenchmarkReturnsState :=
  { daily_returns := [(3, 1 / 10), (4, 1 / 5)]
    daily_cumulative_returns := seriesCumulativeReturns [(3, 1 / 10), (4, 1 / 5)]
    minute_returns := MinuteSeries.exploding "self._minute_returns"
    minute_cumulative_returns :=
      MinuteSeries.exploding "self._minute_cumulative_returns" }

/-- C7 witness: on the concrete two-session daily-mode fixture, the bar hook
explodes naming `self._minute_returns` and the session hook succeeds with
the precomputed values for session 4 (daily return 1/5, cumulative 8/25). -/
theorem benchmark_daily_mode_deferred_failure_witness :
    benchmarkStartOfSimulation EmissionRate.daily c5Calendar c7Source [3, 4]
      = some c7State ∧
    benchmarkEndOfBar c7State {} 4890
      = Except.error (AccessError.exploding "self._minute_returns") ∧
    benchmarkEndOfSession c7State {} 4
      = Except.ok ((Perf.writeDaily {} "benchmark_returns" (1 / 5)).writeCumulative
          "benchmark_returns" (8 / 25)) := by
  obtain ⟨st, h1, _h2, h3, h4⟩ :=
    benchmark_daily_mode_deferred_failure c5Calendar c7Source [3, 4] (by decide)
  have h0 : benchmarkStartOfSimulation EmissionRate.daily c5Calendar c7Source [3, 4]
      = some c7State := rfl
  have hst : st = c7State := Option.some.inj ((h1.symm).trans h0)
  subst hst
  refine ⟨h0, h3 {} 4890, ?_⟩
  have hv : seriesGetLabel c7State.daily_returns 4 = some (1 / 5) := rfl
  have hc : seriesGetLabel c7State.daily_cumulative_returns 4 = some (8 / 25) := by
    show some ((1 * (1 + 1 / 10)) * (1 + 1 / 5) - 1) = some ((8 : ℚ) / 25)
    norm_num
  exact h4 {} 4 (1 / 5) (8 / 25) hv hc

/-- Flat-packet lookup of the key just written. -/
lemma fget_fset_self (p : FlatPacket) (k : String) (v : FVal) :
    fget (fset p k v) k = some v := by
  simp [fget, fset]

/-- Flat-packet lookup of a different key skips past a write. -/
lemma fget_fset_ne (p : FlatPacket) (k k2 : String) (v : FVal) (h : k ≠ k2) :
    fget (fset p k2 v) k = fget p k := by
  simp [fget, fset, h]

/-- The last entry of a running-product scan is the seed times the whole
product. -/
lemma scanl_mul_getLast (l : List ℚ) : ∀ a : ℚ,
    (List.scanl (fun x y => x * y) a l).getLast? = some (a * l.prod) := by
  induction l with
  | nil => intro a; simp [List.scanl_nil]
  | cons x xs ih =>
    intro a
    rw [List.scanl_cons]
    cases hxs : List.scanl (fun x y => x * y) (a * x) xs with
    | nil =>
      have hcontra := ih (a * x)
      rw [hxs] at hcontra
      simp at hcontra
    | cons b bs =>
      have hlast := ih (a * x)
      rw [hxs] at hlast
      calc ([a] ++ b :: bs).getLast? = (b :: bs).getLast? := by
            rw [List.singleton_append, List.getLast?_cons_cons]
        _ = some ((a * x) * xs.prod) := hlast
        _ = some (a * (x :: xs).prod) := by rw [List.prod_cons, mul_assoc]

/-- The last entry of a pandas `cumprod` is the product of the whole
series. -/
lemma cumprodList_getLast (l : List ℚ) (c : ℚ)
    (h : (cumprodList l).getLast? = some c) : c = l.prod := by
  cases l with
  | nil => simp [cumprodList, List.scanl_nil] at h
  | cons x xs =>
    unfold cumprodList at h
    rw [List.scanl_cons, List.singleton_append, List.tail_cons] at h
    rw [scanl_mul_getLast xs (1 * x)] at h
    injection h with h2
    rw [← h2, List.prod_cons, one_mul]

/-- The last entry of `(1 + s).cumprod() - 1` is `(1 + s).prod() - 1`. -/
lemma cumulativeReturnsValues_getLast (l : List ℚ) (c : ℚ)
    (h : (cumulativeReturnsValues l).getLast? = some c) : c = compoundTotal l := by
  unfold cumulativeReturnsValues at h
  rw [List.getLast?_map] at h
  cases hc : (cumprodList (l.map (fun r => 1 + r))).getLast? with
  | none => rw [hc] at h; cases h
  | some d =>
    rw [hc] at h
    have hd := cumprodList_getLast _ _ hc
    injection h with h2
    rw [← h2, hd]
    rfl

/-- `(1 + s).cumprod() - 1` has one entry per entry of the series. -/
lemma cumulativeReturnsValues_length (l : List ℚ) :
    (cumulativeReturnsValues l).length = l.length := by
  unfold cumulativeReturnsValues cumprodList
  rw [List.length_map, List.length_tail, List.length_scanl, List.length_map]
  rfl

/-- The values of the index-keeping cumulative-returns series are exactly
the cumulative-returns values of the underlying values. -/
lemma seriesValues_seriesCumulativeReturns (s : SessionSeries) :
    seriesValues (seriesCumulativeReturns s)
      = cumulativeReturnsValues (seriesValues s) := by
  unfold seriesCumulativeReturns
  show List.map Prod.snd
      ((s.map (fun e => e.1)).zip (cumulativeReturnsValues (seriesValues s)))
    = cumulativeReturnsValues (seriesValues s)
  apply List.map_snd_zip
  rw [cumulativeReturnsValues_length, List.length_map]
  unfold seriesValues
  rw [List.length_map]

/-- Whatever state BenchmarkReturns.start_of_simulation produces has its
cumulative daily series computed from its daily series. -/
lemma benchmark_state_cumulative (rate : EmissionRate) (cal : TradingCalendar)
    (source : BenchmarkSource) (sessions : List ℕ) (bst : BenchmarkReturnsState)
    (h : benchmarkStartOfSimulation rate cal source sessions = some bst) :
    bst.daily_cumulative_returns = seriesCumulativeReturns bst.daily_returns := by
  unfold benchmarkStartOfSimulation at h
  cases h0 : sessions.head? with
  | none => rw [h0] at h; cases h
  | some s0 =>
    cases hL : sessions.getLast? with
    | none => rw [h0, hL] at h; cases h
    | some sLast =>
      rw [h0, hL] at h
      injection h with h2
      rw [← h2]

/-- The two keys C9 is about, written together by one unit, satisfy the
compounding identity: the packet's `daily_algorithm_returns` holds a series
whose compounded total is the packet's `cumulative_algorithm_returns`. -/
def algReturnsIdentity (p : FlatPacket) : Prop :=
  ∃ l, fget p "daily_algorithm_returns" = some (FVal.nums l) ∧
       fget p "cumulative_algorithm_returns" = some (FVal.num (compoundTotal l))

/-- Returns.end_of_simulation establishes the compounding identity: it
writes both keys from `ledger.daily_returns` within the one call. -/
lemma returnsEndOfSimulation_identity (ledger : Ledger) (p q : FlatPacket)
    (h : returnsEndOfSimulation ledger p = some q) : algReturnsIdentity q := by
  unfold returnsEndOfSimulation at h
  injection h with h2
  subst h2
  refine ⟨seriesValues ledger.daily_returns, fget_fset_self _ _ _, ?_⟩
  rw [fget_fset_ne _ _ _ _ (by decide), fget_fset_self]

/-- BenchmarkReturns.end_of_simulation establishes the compounding identity
whenever it succeeds, provided its state came out of start_of_simulation:
the positional-last cumulative entry it writes is the compounded total of
the daily series it writes. -/
lemma benchmarkEndOfSimulation_identity (bst : BenchmarkReturnsState)
    (hc : bst.daily_cumulative_returns = seriesCumulativeReturns bst.daily_returns)
    (p q : FlatPacket) (h : benchmarkEndOfSimulation bst p = some q) :
    algReturnsIdentity q := by
  unfold benchmarkEndOfSimulation at h
  cases hl : (seriesValues bst.daily_cumulative_returns).getLast? with
  | none => rw [hl] at h; cases h
  | some c =>
    rw [hl] at h
    injection h with h2
    subst h2
    refine ⟨seriesValues bst.daily_returns, fget_fset_self _ _ _, ?_⟩
    rw [fget_fset_ne _ _ _ _ (by decide), fget_fset_self]
    rw [hc, seriesValues_seriesCumulativeReturns] at hl
    rw [cumulativeReturnsValues_getLast _ _ hl]

/-- PNL.end_of_simulation writes only `total_pnl` and `daily_pnl`, so it
preserves the compounding identity. -/
lemma pnlEndOfSimulation_preserves (ledger : Ledger) (st : PNLState)
    (p q : FlatPacket) (h : pnlEndOfSimulation ledger st p = some q)
    (hp : algReturnsIdentity p) : algReturnsIdentity q := by
  unfold pnlEndOfSimulation at h
  injection h with h2
  subst h2
  obtain ⟨l, h1, h2⟩ := hp
  exact ⟨l, by rw [fget_fset_ne _ _ _ _ (by decide),
                   fget_fset_ne _ _ _ _ (by decide), h1],
            by rw [fget_fset_ne _ _ _ _ (by decide),
                   fget_fset_ne _ _ _ _ (by decide), h2]⟩

/-- None of the twelve SimpleLedgerField output names is one of the two
algorithm-returns keys. -/
lemma simpleFieldPacketFields_ne (f : String) (hf : f ∈ simpleFieldPacketFields) :
    f ≠ "daily_algorithm_returns" ∧ f ≠ "cumulative_algorithm_returns" := by
  fin_cases hf <;> exact ⟨by decide, by decide⟩

/-- SimpleLedgerField.end_of_simulation writes only its own packet field —
for every default-registry instance a name distinct from the two
algorithm-returns keys — so it preserves the compounding identity. -/
lemma simpleEndOfSimulation_preserves (u : SimpleLedgerField) (dv : DailyValueSeries)
    (hf : u.packet_field ∈ simpleFieldPacketFields) (p q : FlatPacket)
    (h : simpleEndOfSimulation u dv p = some q) (hp : algReturnsIdentity p) :
    algReturnsIdentity q := by
  unfold simpleEndOfSimulation at h
  injection h with h2
  subst h2
  obtain ⟨hd, hc⟩ := simpleFieldPacketFields_ne u.packet_field hf
  obtain ⟨l, h1, h2⟩ := hp
  exact ⟨l, by rw [fget_fset_ne _ _ _ _ (Ne.symm hd), h1],
            by rw [fget_fset_ne _ _ _ _ (Ne.symm hc), h2]⟩

/-- The end_of_simulation hooks the default metric set can contribute to the
simulation-end dispatch list: the Returns hook over the ledger, a
BenchmarkReturns hook over any state produced by its start_of_simulation, a
PNL hook over any cursor state, and a SimpleLedgerField hook for any of the
twelve registry field names over any recorded daily values. -/
inductive DefaultEndOfSimulationHook (ledger : Ledger) : EndOfSimulationHook → Prop
  | ret : DefaultEndOfSimulationHook ledger (returnsEndOfSimulation ledger)
  | bench (rate : EmissionRate) (cal : TradingCalendar) (source : BenchmarkSource)
      (sessions : List ℕ) (bst : BenchmarkReturnsState)
      (h : benchmarkStartOfSimulation rate cal source sessions = some bst) :
      DefaultEndOfSimulationHook ledger (benchmarkEndOfSimulation bst)
  | pnl (st : PNLState) :
      DefaultEndOfSimulationHook ledger (pnlEndOfSimulation ledger st)
  | simple (u : SimpleLedgerField) (dv : DailyValueSeries)
      (hf : u.packet_field ∈ simpleFieldPacketFields) :
      DefaultEndOfSimulationHook ledger (simpleEndOfSimulation u dv)

/-- Running any list of default end_of_simulation hooks preserves — and,
once the Returns hook has run, establishes — the compounding identity. -/
lemma runHooks_identity (ledger : Ledger) :
    ∀ (L : List EndOfSimulationHook) (p q : FlatPacket),
      (∀ h ∈ L, DefaultEndOfSimulationHook ledger h) →
      (algReturnsIdentity p ∨ returnsEndOfSimulation ledger ∈ L) →
      runEndOfSimulationHooks L p = some q → algReturnsIdentity q := by
  intro L
  induction L with
  | nil =>
    intro p q _ hstart hrun
    unfold runEndOfSimulationHooks at hrun
    injection hrun with h2
    subst h2
    cases hstart with
    | inl hp => exact hp
    | inr hmem => cases hmem
  | cons h t ih =>
    intro p q hall hstart hrun
    unfold runEndOfSimulationHooks at hrun
    cases hh : h p with
    | none => rw [hh] at hrun; cases hrun
    | some p2 =>
      rw [hh] at hrun
      have hd := hall h (List.mem_cons_self h t)
      have hall2 : ∀ g ∈ t, DefaultEndOfSimulationHook ledger g :=
        fun g hg => hall g (List.mem_cons_of_mem h hg)
      cases hd with
      | ret =>
        exact ih p2 q hall2 (Or.inl (returnsEndOfSimulation_identity ledger p p2 hh))
          hrun
      | bench rate cal source sessions bst hb =>
        exact ih p2 q hall2
          (Or.inl (benchmarkEndOfSimulation_identity bst
            (benchmark_state_cumulative rate cal source sessions bst hb) p p2 hh))
          hrun
      | pnl st =>
        cases hstart with
        | inl hp =>
          exact ih p2 q hall2
            (Or.inl (pnlEndOfSimulation_preserves ledger st p p2 hh hp)) hrun
        | inr hmem =>
          cases List.mem_cons.mp hmem with
          | inl heq =>
            rw [← heq] at hh
            exact ih p2 q hall2
              (Or.inl (returnsEndOfSimulation_identity ledger p p2 hh)) hrun
          | inr hmem2 => exact ih p2 q hall2 (Or.inr hmem2) hrun
      | simple u dv hf =>
        cases hstart with
        | inl hp =>
          exact ih p2 q hall2
            (Or.inl (simpleEndOfSimulation_preserves u dv hf p p2 hh hp)) hrun
        | inr hmem =>
          cases List.mem_cons.mp hmem with
          | inl heq =>
            rw [← heq] at hh
            exact ih p2 q hall2
              (Or.inl (returnsEndOfSimulation_identity ledger p p2 hh)) hrun
          | inr hmem2 => exact ih p2 q hall2 (Or.inr hmem2) hrun

/-- C9: in any simulation-end packet produced by handle_simulation_end over
a dispatch list drawn from the default metric set (in any order — in
particular regardless of which of the two units writing the
algorithm-returns keys runs last) that contains the Returns hook, the value
of `cumulative_algorithm_returns` equals the product of `(1 + r)` over the
entries of `daily_algorithm_returns`, minus one — exactly, in the rational
model. -/
theorem simulation_end_compounding_identity (ledger : Ledger)
    (L : List EndOfSimulationHook) (q : FlatPacket)
    (hdef : ∀ h ∈ L, DefaultEndOfSimulationHook ledger h)
    (hret : returnsEndOfSimulation ledger ∈ L)
    (hrun : handle_simulation_end L = some q) :
    ∃ l, fget q "daily_algorithm_returns" = some (FVal.nums l) ∧
         fget q "cumulative_algorithm_returns" = some (FVal.num (compoundTotal l)) :=
  runHooks_identity ledger L [] q hdef (Or.inr hret) hrun

/-- The ledger fixture for the simulation-end witness: two recorded daily
returns. -/
def c9Ledger : Ledger :=
  { portfolio :=
    { returns := 0, pnl := 12, cash_flow := 0, positions_value := 0,
      positions_exposure := 0, portfolio_value := 100012, cash := 100012 }
    daily_returns := [(3, 1 / 10), (4, 1 / 5)] }

/-- A concrete simulation-end dispatch list drawn from the default metric
set, with the benchmark unit running after the Returns unit (so it is the
last writer of the two algorithm-returns keys). -/
def c9Hooks : List EndOfSimulationHook :=
  [returnsEndOfSimulation c9Ledger,
   pnlEndOfSimulation c9Ledger (pnlStartOfSimulation [3, 4]),
   benchmarkEndOfSimulation c7State,
   simpleEndOfSimulation endingValueUnit [(3, some 7), (4, none)]]

/-- C9 witness: on the concrete dispatch list the simulation-end packet
exists and satisfies the compounding identity. -/
theorem simulation_end_compounding_identity_witness :
    ∃ q, handle_simulation_end c9Hooks = some q ∧
      ∃ l, fget q "daily_algorithm_returns" = some (FVal.nums l) ∧
           fget q "cumulative_algorithm_returns"
             = some (FVal.num (compoundTotal l)) := by
  have hdef : ∀ h ∈ c9Hooks, DefaultEndOfSimulationHook c9Ledger h := by
    intro h hm
    simp only [c9Hooks, List.mem_cons, List.not_mem_nil, or_false] at hm
    rcases hm with rfl | rfl | rfl | rfl
    · exact DefaultEndOfSimulationHook.ret
    · exact DefaultEndOfSimulationHook.pnl (pnlStartOfSimulation [3, 4])
    · exact DefaultEndOfSimulationHook.bench EmissionRate.daily c5Calendar c7Source
        [3, 4] c7State rfl
    · exact DefaultEndOfSimulationHook.simple endingValueUnit [(3, some 7), (4, none)]
        (by decide)
  have hret : returnsEndOfSimulation c9Ledger ∈ c9Hooks :=
    List.mem_cons_self _ _
  exact ⟨_, rfl,
    simulation_end_compounding_identity c9Ledger c9Hooks _ hdef hret rfl⟩
